import Mathlib

/-!
# Shallow embedding of `vega_risk_engine.py`

This file embeds the core of the vega P&L risk engine
(`src/vega_risk_engine.py`) in Lean 4 and settles the frozen claims about
it.  Conventions of the embedding:

* Python floats are modelled as exact numbers: the surface/grid arithmetic
  (parsing, clamping, linear interpolation, totals) uses `ℚ`, and the
  volatility-response models, which call `exp`/`log`/`sqrt`, return `ℝ`.
* A Python `dict` is modelled as an association list in insertion order;
  `d[k] = v` overwrites the entry when the key is present and appends
  otherwise, exactly like a Python dict.
* Python exceptions are modelled with `Except`: the engine only ever raises
  `ValueError`, carried here by `PyError.valueError` with its message.
* Two external library kernels are not reproduced: scipy's cubic-spline
  interpolator (`interp1d(kind="cubic")`) and pandas' calendar arithmetic
  (`pd.Timestamp` subtraction).  They enter as the two fields of `PyEnv`
  (`cubicFit`, `dateDays`) and every theorem quantifies over them; no claim
  depends on their values.  The linear interpolator (`interp1d(kind="linear",
  fill_value="extrapolate")`) is modelled exactly by `linInterp`.
-/

/-- The only exception class the engine raises (`raise ValueError(...)`). -/
inductive PyError where
  | valueError (msg : String)
  deriving DecidableEq, Repr

/-- Python exception class name of an error value (`type(e).__name__`). -/
def PyError.className : PyError → String
  | .valueError _ => "ValueError"

/-- `class VegaGrid` — a single vega surface at a specific spot-shift level.
`values` is a list of rows (one row per moneyness, one column per expiry). -/
structure VegaGrid where
  spot_shift : ℚ
  moneyness : List ℚ
  expiries : List String
  expiry_years : List ℚ
  values : List (List ℚ)
  row_totals : List ℚ
  col_totals : List ℚ
  total : ℚ
  deriving DecidableEq, Repr

/-- `class BetaParams` — parameters of the calibrated spot-vol beta model. -/
structure BetaParams where
  spot_vol_beta : ℚ
  skew_beta : ℚ
  term_decay : ℚ
  convexity : ℚ
  volga_scale : ℚ
  term_floor : ℚ
  deriving DecidableEq, Repr

/-- The dataclass defaults of `BetaParams`. -/
def defaultBetaParams : BetaParams :=
  { spot_vol_beta := -0.40, skew_beta := 0.15, term_decay := 0.50,
    convexity := 2.0, volga_scale := 0.15, term_floor := 0.08 }

/-- `class ManualParams` — parameters of the manual vol scenario mode. -/
structure ManualParams where
  atm_vol_change : ℚ
  skew_change : ℚ
  term_multiplier : ℚ
  volga_scale : ℚ
  deriving DecidableEq, Repr

/-- The dataclass defaults of `ManualParams`. -/
def defaultManualParams : ManualParams :=
  { atm_vol_change := 0.0, skew_change := 0.1, term_multiplier := 0.5,
    volga_scale := 0.15 }

/-! ## Python dict operations (association lists in insertion order) -/

/-- `d[k] = v` on a Python dict: overwrite the entry if the key is present,
append a new entry otherwise. -/
def dictSet [DecidableEq α] (d : List (α × β)) (k : α) (v : β) : List (α × β) :=
  if (d.map Prod.fst).contains k then
    d.map (fun p => if p.1 = k then (p.1, v) else p)
  else d ++ [(k, v)]

/-- `d.get(k, v₀)` on a Python dict. -/
def dictGetD [DecidableEq α] (d : List (α × β)) (k : α) (v₀ : β) : β :=
  ((d.find? (fun p => p.1 = k)).map Prod.snd).getD v₀

/-- Sum of the values of a dict (`sum(d.values())`). -/
def valsSum (d : List (α × ℝ)) : ℝ := (d.map Prod.snd).sum

/-! ## External kernels (`PyEnv`) -/

/-- The two external library kernels the engine calls but whose numerics the
claims never depend on: `cubicFit xs ys x` stands for scipy's
`interp1d(xs, ys, kind="cubic", fill_value="extrapolate")(x)`, and
`dateDays e` stands for `(pd.Timestamp(e) - pd.Timestamp(REFERENCE_DATE)).days`.
Every theorem below is quantified over the environment. -/
structure PyEnv where
  cubicFit : List ℚ → List ℚ → ℚ → ℚ
  dateDays : String → ℤ

/-! ## CSV parsing helpers -/

/-- `FILE_SHIFT_MAP` in source order (dict literals iterate in insertion
order). -/
def FILE_SHIFT_MAP : List (String × ℚ) :=
  [("down_75", -0.075), ("down_50", -0.05), ("down_25", -0.025),
   ("atm", 0.0), ("up_25", 0.025), ("up_50", 0.05), ("up_75", 0.075)]

/-- Whether `pat` occurs as a contiguous substring of `l` (Python `in` on
strings).  Strings are handled as `List Char` throughout so that every
string operation is structurally recursive and evaluable. -/
def charsContain [DecidableEq α] (pat : List α) : List α → Bool
  | [] => pat.isEmpty
  | a :: l => pat.isPrefixOf (a :: l) || charsContain pat l

/-- Split a character list on a separator character (the separators used by
`Path` here — `/` and `.` — are single characters). -/
def splitChar (sep : Char) : List Char → List (List Char)
  | [] => [[]]
  | c :: rest =>
    let r := splitChar sep rest
    if c = sep then [] :: r
    else match r with
      | [] => [[c]]
      | g :: gs => (c :: g) :: gs

/-- `Path(filename).stem`: the final path component without its last
extension.  (Dotfiles like `.bashrc` are not treated specially; no claim
uses them.) -/
def pathStem (f : List Char) : List Char :=
  let base := (splitChar '/' f).getLastD f
  let parts := splitChar '.' base
  if parts.length ≤ 1 then base else List.intercalate ['.'] parts.dropLast

/-- `detect_shift_from_filename`: first map key occurring in the lowercased
stem wins. -/
def detect_shift_from_filename (filename : String) : Option ℚ :=
  let name := (pathStem filename.data).map Char.toLower
  (FILE_SHIFT_MAP.find? (fun kv => charsContain kv.1.data name)).map Prod.snd

/-- The `spot_shift is None` resolution at the top of `parse_csv`
(lines 115–118): use the explicit shift if given, otherwise infer it from
the filename, raising `ValueError` when that fails. -/
def resolve_spot_shift (filepath : String) (spot_shift : Option ℚ) :
    Except PyError ℚ :=
  match spot_shift with
  | some s => .ok s
  | none =>
    match detect_shift_from_filename filepath with
    | some s => .ok s
    | none => .error (.valueError
      ("Cannot detect spot shift from filename: " ++ filepath))

/-- One row of the tabular input as pandas presents it after
`read_csv(header=0, index_col=0)`: the index cell (a moneyness label, or
blank/`NaN` for the trailing summary row) and the remaining cells. -/
structure RawRow where
  idx : Option ℚ
  cells : List ℚ
  deriving DecidableEq, Repr

/-- The tabular input to `parse_csv`: the header labels after the index
column, and the rows. -/
structure RawTable where
  header : List String
  rows : List RawRow
  deriving DecidableEq, Repr

/-- `str.strip()` on a character list. -/
def trimChars (l : List Char) : List Char :=
  (((l.dropWhile Char.isWhitespace).reverse).dropWhile Char.isWhitespace).reverse

/-- Column sums over `ℚ` (`values.sum(axis=0)` entry `j`). -/
def colSumQ (mat : List (List ℚ)) (j : ℕ) : ℚ := (mat.map (fun r => r.getD j 0)).sum

/-- `365.25` as a rational. -/
def daysPerYear : ℚ := 365.25

/-- `parse_csv(filepath, spot_shift, ref_date)` on an in-memory table.
`env.dateDays` stands for the pandas day-count against the reference date. -/
def parse_csv (env : PyEnv) (filepath : String) (t : RawTable)
    (spot_shift : Option ℚ) : Except PyError VegaGrid := do
  let shift ← resolve_spot_shift filepath spot_shift
  -- Drop the TOTAL column if present (it becomes the independent row totals)
  let hasTotal := t.header.contains "TOTAL"
  let totIdx := t.header.indexOf "TOTAL"
  let dataHeader := if hasTotal then t.header.eraseIdx totIdx else t.header
  let dataCells := fun (r : RawRow) =>
    if hasTotal then r.cells.eraseIdx totIdx else r.cells
  -- Separate data rows from the trailing summary row (blank index)
  let dataRows := t.rows.filter (fun r => r.idx.isSome)
  let summaryRows := t.rows.filter (fun r => r.idx.isNone)
  let moneyness := dataRows.map (fun r => r.idx.getD 0)
  let expiry_strs := dataHeader.map (fun c => String.mk (trimChars c.data))
  let expiry_years := expiry_strs.map
    (fun e => max ((env.dateDays e : ℚ) / daysPerYear) (1 / daysPerYear))
  let values := dataRows.map dataCells
  let row_totals :=
    if hasTotal then dataRows.map (fun r => r.cells.getD totIdx 0)
    else values.map List.sum
  let col_totals :=
    match summaryRows with
    | s :: _ => dataCells s
    | [] => (List.range dataHeader.length).map (colSumQ values)
  let total := row_totals.sum
  return { spot_shift := shift, moneyness := moneyness, expiries := expiry_strs,
           expiry_years := expiry_years, values := values,
           row_totals := row_totals, col_totals := col_totals, total := total }

/-! ## Interpolation engine -/

/-- `np.clip(v, lo, hi)`. -/
def npClip (v lo hi : ℚ) : ℚ := min (max v lo) hi

/-- `np.sign` on a rational. -/
def qsign (x : ℚ) : ℚ := if 0 < x then 1 else if x < 0 then -1 else 0

/-- scipy `interp1d(xs, ys, kind="linear", fill_value="extrapolate")`
evaluated at `x`, with the knots given as `(xᵢ, yᵢ)` pairs in ascending `x`
order: piecewise-linear between consecutive knots, extrapolating with the
first/last segment outside the knot range. -/
def linInterp : List (ℚ × ℚ) → ℚ → ℚ
  | [], _ => 0
  | [(_, y)], _ => y
  | (x0, y0) :: (x1, y1) :: rest, x =>
    if x ≤ x1 then y0 + (y1 - y0) * (x - x0) / (x1 - x0)
    else linInterp ((x1, y1) :: rest) x

/-- A grid standing in for a `KeyError` lookup that the engine never
reaches (all lookups below are guarded by membership). -/
def emptyGrid : VegaGrid :=
  { spot_shift := 0, moneyness := [], expiries := [], expiry_years := [],
    values := [], row_totals := [], col_totals := [], total := 0 }

/-- `surfaces[k]` (guarded dict lookup). -/
def dictGetGrid (surfaces : List (ℚ × VegaGrid)) (k : ℚ) : VegaGrid :=
  ((surfaces.find? (fun p => p.1 = k)).map Prod.snd).getD emptyGrid

/-- `sorted(surfaces.keys())`. -/
def sortedShifts (surfaces : List (ℚ × VegaGrid)) : List ℚ :=
  (surfaces.map Prod.fst).mergeSort (fun a b => decide (a ≤ b))

/-- `interpolate_vega_grid(surfaces, spot_move, method)`.

* raises `ValueError` when no surfaces are given;
* with exactly one surface, returns that surface itself;
* otherwise clamps the move into the sampled shift range; on an exact key
  match returns a copy of that grid with `spot_shift` set to the *unclamped*
  move; otherwise rebuilds every cell by a 1-D fit over the shift levels
  (`linear` always, `cubic` only with at least four levels) evaluated at the
  clamped move, recomputing all totals. -/
def interpolate_vega_grid (env : PyEnv) (surfaces : List (ℚ × VegaGrid))
    (spot_move : ℚ) (method : String) : Except PyError VegaGrid :=
  let shifts := sortedShifts surfaces
  if shifts.length = 0 then .error (.valueError "No surfaces provided")
  else if shifts.length = 1 then .ok (dictGetGrid surfaces (shifts.headD 0))
  else
    -- Clamp to available range
    let clamped := npClip spot_move (shifts.headD 0) (shifts.getLastD 0)
    -- If exact match, return directly (`clamped in surfaces`)
    match surfaces.find? (fun p => p.1 = clamped) with
    | some pr =>
      let grid := pr.2
      .ok { spot_shift := spot_move, moneyness := grid.moneyness,
            expiries := grid.expiries, expiry_years := grid.expiry_years,
            values := grid.values, row_totals := grid.row_totals,
            col_totals := grid.col_totals, total := grid.total }
    | none =>
      -- Build interpolated values cell by cell from the first surface's shape
      let ref := dictGetGrid surfaces (shifts.headD 0)
      let n_strikes := ref.values.length
      let n_expiries := (ref.values.headD []).length
      let interp_values := (List.range n_strikes).map (fun i =>
        (List.range n_expiries).map (fun j =>
          let y_vals := shifts.map
            (fun s => ((dictGetGrid surfaces s).values.getD i []).getD j 0)
          if method == "cubic" && decide (4 ≤ shifts.length) then
            env.cubicFit shifts y_vals clamped
          else linInterp (shifts.zip y_vals) clamped))
      let row_totals := interp_values.map List.sum
      let col_totals := (List.range n_expiries).map (colSumQ interp_values)
      let total := (interp_values.map List.sum).sum
      .ok { spot_shift := spot_move, moneyness := ref.moneyness,
            expiries := ref.expiries, expiry_years := ref.expiry_years,
            values := interp_values, row_totals := row_totals,
            col_totals := col_totals, total := total }

/-! ## Vol scenario models -/

/-- The `atm_change` line of `beta_vol_change`
(`spot_vol_beta * dS + convexity * dS * dS * 0.01`). -/
def atm_change (params : BetaParams) (dS : ℚ) : ℚ :=
  params.spot_vol_beta * dS + params.convexity * dS * dS * 0.01

/-- The `skew_effect` line of `beta_vol_change`
(`np.clip(1.0 - skew_beta * m_diff * np.sign(-dS), 0.5, 2.0)`). -/
def skew_effect (params : BetaParams) (moneyness dS : ℚ) : ℚ :=
  npClip (1 - params.skew_beta * (moneyness - 1) * qsign (-dS)) 0.5 2

/-- The `term_factor` line of `beta_vol_change`
(`max(term_floor, exp(-term_decay * years_to_expiry))`). -/
noncomputable def beta_term_factor (params : BetaParams) (years_to_expiry : ℚ) : ℝ :=
  max (params.term_floor : ℝ) (Real.exp (-(params.term_decay : ℝ) * (years_to_expiry : ℝ)))

/-- The shared Volga factor
(`min(log(max(m, 0.01))² / (0.2² * max(t, 0.01)), 10.0)`). -/
noncomputable def volga_factor (moneyness years_to_expiry : ℚ) : ℝ :=
  min ((Real.log ((max moneyness 0.01 : ℚ) : ℝ)) ^ 2 /
        ((0.2 : ℝ) ^ 2 * ((max years_to_expiry 0.01 : ℚ) : ℝ))) 10

/-- `beta_vol_change(moneyness, years_to_expiry, spot_move, params)`:
returns `(dSigma, volga_pnl)` under the calibrated beta model. -/
noncomputable def beta_vol_change (moneyness years_to_expiry spot_move : ℚ)
    (params : BetaParams) : ℝ × ℝ :=
  let dS := spot_move * 100
  let dSigma : ℝ :=
    (atm_change params dS : ℝ) * (skew_effect params moneyness dS : ℝ) *
      beta_term_factor params years_to_expiry
  let volga_pnl : ℝ :=
    0.5 * volga_factor moneyness years_to_expiry * dSigma * dSigma *
      (params.volga_scale : ℝ)
  (dSigma, volga_pnl)

/-- `manual_vol_change(moneyness, years_to_expiry, params)`:
returns `(dSigma, volga_pnl)` under the manual scenario model. -/
noncomputable def manual_vol_change (moneyness years_to_expiry : ℚ)
    (params : ManualParams) : ℝ × ℝ :=
  let m_diff := moneyness - 1
  let term_factor : ℝ :=
    1 / (1 + (params.term_multiplier : ℝ) * Real.sqrt ((years_to_expiry : ℚ) : ℝ))
  let dSigma : ℝ :=
    ((params.atm_vol_change + params.skew_change * m_diff : ℚ) : ℝ) * term_factor
  let volga_pnl : ℝ :=
    0.5 * volga_factor moneyness years_to_expiry * dSigma * dSigma *
      (params.volga_scale : ℝ)
  (dSigma, volga_pnl)

/-- `compute_vol_change_grid(grid, spot_move, vol_mode, beta_params,
manual_params)`: apply the selected model to every `(i, j)` cell of the grid,
returning the `(vol_changes, volga_pnl)` matrices.  `None` parameters take
the dataclass defaults. -/
noncomputable def compute_vol_change_grid (grid : VegaGrid) (spot_move : ℚ)
    (vol_mode : String) (beta_params : Option BetaParams)
    (manual_params : Option ManualParams) :
    (List (List ℝ)) × (List (List ℝ)) :=
  let bp := beta_params.getD defaultBetaParams
  let mp := manual_params.getD defaultManualParams
  let n := grid.values.length
  let m := (grid.values.headD []).length
  let cell := fun (i j : ℕ) =>
    if vol_mode == "beta" then
      beta_vol_change (grid.moneyness.getD i 0) (grid.expiry_years.getD j 0)
        spot_move bp
    else
      manual_vol_change (grid.moneyness.getD i 0) (grid.expiry_years.getD j 0) mp
  ((List.range n).map (fun i => (List.range m).map (fun j => (cell i j).1)),
   (List.range n).map (fun i => (List.range m).map (fun j => (cell i j).2)))

/-! ## P&L computation -/

/-- `EXPIRY_BUCKET_THRESHOLDS` with `float("inf")` modelled as `none`. -/
def EXPIRY_BUCKET_THRESHOLDS : List (Option ℤ × String) :=
  [(some 30, "0-1M"), (some 90, "1-3M"), (some 180, "3-6M"),
   (some 365, "6-12M"), (some 730, "1-2Y"), (none, "2Y+")]

/-- The threshold loop of `classify_expiry`: first threshold with
`days <= threshold` wins, with the trailing `"2Y+"` fallback. -/
def bucketOfDays (days : ℤ) : String :=
  (EXPIRY_BUCKET_THRESHOLDS.find? (fun th =>
      match th.1 with
      | some t => decide (days ≤ t)
      | none => true)).elim "2Y+" Prod.snd

/-- `classify_expiry(expiry_str)`: day count from the reference date
(pandas date arithmetic, `env.dateDays`), then the threshold loop. -/
def classify_expiry (env : PyEnv) (expiry_str : String) : String :=
  bucketOfDays (env.dateDays expiry_str)

/-- The `vol_params` audit dict attached to a `PnLResult`. -/
inductive VolParamsUsed where
  | beta (spot_vol_beta skew_beta term_decay convexity : ℚ)
  | manual (atm_vol_change skew_change term_multiplier : ℚ)
  deriving DecidableEq, Repr

/-- `class PnLResult`. -/
structure PnLResult where
  total_pnl : ℝ
  pnl_grid : List (List ℝ)
  pnl_by_expiry : List (String × ℝ)
  pnl_by_bucket : List (String × ℝ)
  pnl_by_moneyness : List (ℚ × ℝ)
  vega_grid : VegaGrid
  vol_change_grid : List (List ℝ)
  spot_move : ℚ
  vol_params : VolParamsUsed

/-- Elementwise `vega_grid.values * mat` with the vega values cast to `ℝ`. -/
def matMulQR (values : List (List ℚ)) (mat : List (List ℝ)) : List (List ℝ) :=
  List.zipWith (fun vrow mrow => List.zipWith (fun (q : ℚ) (r : ℝ) => (q : ℝ) * r) vrow mrow)
    values mat

/-- Elementwise matrix sum. -/
def matAdd (a b : List (List ℝ)) : List (List ℝ) :=
  List.zipWith (fun ra rb => List.zipWith (· + ·) ra rb) a b

/-- `mat.sum()` over all cells. -/
def matSum (mat : List (List ℝ)) : ℝ := (mat.map List.sum).sum

/-- `mat[:, j].sum()`. -/
def colSum (mat : List (List ℝ)) (j : ℕ) : ℝ := (mat.map (fun r => r.getD j 0)).sum

/-- `compute_pnl(surfaces, spot_move, vol_mode, beta_params, manual_params,
interp_method)`: interpolate the vega grid, build the vol-change and volga
matrices, take `pnl = values * vol_change + values * volga`, and aggregate by
expiry, tenor bucket and moneyness (Python dict semantics). -/
noncomputable def compute_pnl (env : PyEnv) (surfaces : List (ℚ × VegaGrid))
    (spot_move : ℚ) (vol_mode : String) (beta_params : Option BetaParams)
    (manual_params : Option ManualParams) (interp_method : String) :
    Except PyError PnLResult := do
  let bp := beta_params.getD defaultBetaParams
  let mp := manual_params.getD defaultManualParams
  -- Step 1: Interpolate vega grid
  let vega_grid ← interpolate_vega_grid env surfaces spot_move interp_method
  -- Step 2: Compute vol changes + Volga
  let pair := compute_vol_change_grid vega_grid spot_move vol_mode (some bp) (some mp)
  -- Step 3: P&L = Vega × ΔVol + Vega × VolgaPnL
  let pnl_grid := matAdd (matMulQR vega_grid.values pair.1)
    (matMulQR vega_grid.values pair.2)
  -- Step 4: Aggregations
  let total_pnl := matSum pnl_grid
  let pnl_by_expiry := vega_grid.expiries.enum.foldl
    (fun d je => dictSet d je.2 (colSum pnl_grid je.1)) []
  let pnl_by_bucket := vega_grid.expiries.enum.foldl
    (fun d je =>
      let bucket := classify_expiry env je.2
      dictSet d bucket (dictGetD d bucket 0 + colSum pnl_grid je.1)) []
  let pnl_by_moneyness := vega_grid.moneyness.enum.foldl
    (fun d im => dictSet d im.2 ((pnl_grid.getD im.1 []).sum)) []
  let vp := if vol_mode == "beta" then
      VolParamsUsed.beta bp.spot_vol_beta bp.skew_beta bp.term_decay bp.convexity
    else
      VolParamsUsed.manual mp.atm_vol_change mp.skew_change mp.term_multiplier
  return { total_pnl := total_pnl, pnl_grid := pnl_grid,
           pnl_by_expiry := pnl_by_expiry, pnl_by_bucket := pnl_by_bucket,
           pnl_by_moneyness := pnl_by_moneyness, vega_grid := vega_grid,
           vol_change_grid := pair.1, spot_move := spot_move, vol_params := vp }

/-! ## Scenario matrix -/

/-- One row of the scenario-matrix DataFrame: the `spot_move` entry and the
remaining labelled columns in insertion order. -/
structure ScenarioRow where
  spot_move : ℚ
  cells : List (String × ℝ)

/-- Default spot move grid
(`[round(s, 4) for s in np.arange(-0.075, 0.076, 0.005)]` — 31 exact values,
the rounding removing float noise). -/
def defaultSpotMoves : List ℚ := (List.range 31).map (fun k => -0.075 + k * 0.005)

/-- Default manual vol overrides `[-5, -3, -1, 0, 1, 3, 5]`.  Overrides are
modelled as integers, matching both the default set and the integer column
tag `f"vol_{dv:+.0f}"`. -/
def defaultVolOverrides : List ℤ := [-5, -3, -1, 0, 1, 3, 5]

/-- Column tag `f"vol_{dv:+.0f}"` for an integer override. -/
def volLabel (dv : ℤ) : String :=
  "vol_" ++ (if dv < 0 then "-" else "+") ++ toString dv.natAbs

/-- `compute_scenario_matrix(surfaces, spot_moves, vol_mode, beta_params,
manual_params, vol_changes_override)`.  Beta mode: one row per spot move with
`total_pnl` and one `pnl_<bucket>` column per bucket.  Manual mode: one row
per spot move with one column per vol override, computed with a fresh
`ManualParams(atm_vol_change=dv, skew_change=base.skew_change,
term_multiplier=base.term_multiplier)` (so `volga_scale` reverts to its
dataclass default). -/
noncomputable def compute_scenario_matrix (env : PyEnv)
    (surfaces : List (ℚ × VegaGrid)) (spot_moves : Option (List ℚ))
    (vol_mode : String) (beta_params : Option BetaParams)
    (manual_params : Option ManualParams)
    (vol_changes_override : Option (List ℤ)) :
    Except PyError (List ScenarioRow) := do
  let sms := spot_moves.getD defaultSpotMoves
  let bp := beta_params.getD defaultBetaParams
  let mp := manual_params.getD defaultManualParams
  if vol_mode == "beta" then
    sms.mapM (fun sm => do
      let r ← compute_pnl env surfaces sm "beta" (some bp) none "linear"
      return { spot_move := sm,
               cells := ("total_pnl", r.total_pnl) ::
                 r.pnl_by_bucket.map (fun bpnl => ("pnl_" ++ bpnl.1, bpnl.2)) })
  else
    let ovr := vol_changes_override.getD defaultVolOverrides
    sms.mapM (fun sm => do
      let cells ← ovr.mapM (fun dv => do
        let mpRow : ManualParams :=
          { atm_vol_change := ((dv : ℤ) : ℚ), skew_change := mp.skew_change,
            term_multiplier := mp.term_multiplier,
            volga_scale := defaultManualParams.volga_scale }
        let r ← compute_pnl env surfaces sm "manual" none (some mpRow) "linear"
        return (volLabel dv, r.total_pnl))
      return { spot_move := sm, cells := cells })

/-! ## Projection helpers used in theorem statements -/

/-- The grid of a successful parse/interpolation (`emptyGrid` on failure). -/
def exGrid (e : Except PyError VegaGrid) : VegaGrid :=
  match e with | .ok g => g | .error _ => emptyGrid

/-- `total_pnl` of a successful computation (0 on failure). -/
def exTotal (e : Except PyError PnLResult) : ℝ :=
  match e with | .ok r => r.total_pnl | .error _ => 0

/-- Sum of the `pnl_by_expiry` dict values of a successful computation. -/
def exByExpirySum (e : Except PyError PnLResult) : ℝ :=
  match e with | .ok r => valsSum r.pnl_by_expiry | .error _ => 0

/-- First data cell of the first scenario-matrix row (0 on failure). -/
def firstCell (e : Except PyError (List ScenarioRow)) : ℝ :=
  match e with
  | .ok (r :: _) => (r.cells.map Prod.snd).headD 0
  | _ => 0

/-- Python exception class of a failed computation. -/
def exErrClass (e : Except PyError α) : String :=
  match e with | .error err => err.className | .ok _ => "NoError"

/-- The row totals explicitly supplied by a table's `TOTAL` column
(restricted to the data rows, as `row_totals_col[mask]` does). -/
def suppliedRowTotals (t : RawTable) : List ℚ :=
  (t.rows.filter (fun r => r.idx.isSome)).map
    (fun r => r.cells.getD (t.header.indexOf "TOTAL") 0)

/-- The column totals explicitly supplied by a table's trailing summary row
(its cells minus the `TOTAL` column's grand-total cell). -/
def suppliedColTotals (t : RawTable) : List ℚ :=
  match t.rows.filter (fun r => r.idx.isNone) with
  | s :: _ => s.cells.eraseIdx (t.header.indexOf "TOTAL")
  | [] => []

/-! ## Concrete instances used by witnesses and counterexamples -/

/-- A concrete environment: the opaque external kernels instantiated
trivially (no claim depends on them). -/
def env0 : PyEnv := ⟨fun _ _ _ => 0, fun _ => 0⟩

/-- A concrete single surface stored under shift key `0.02`. -/
def gOne : VegaGrid :=
  { spot_shift := 0.02, moneyness := [0.9, 1.1], expiries := ["2026-03-20"],
    expiry_years := [0.1], values := [[100], [200]], row_totals := [100, 200],
    col_totals := [300], total := 300 }

/-- A concrete single surface stored under shift key `0`. -/
def gZero : VegaGrid :=
  { spot_shift := 0, moneyness := [1], expiries := ["2026-06-30"],
    expiry_years := [0.4], values := [[50]], row_totals := [50],
    col_totals := [50], total := 50 }

/-- Concrete surface at shift `-0.05`. -/
def gA : VegaGrid :=
  { spot_shift := -0.05, moneyness := [1], expiries := ["e"],
    expiry_years := [1], values := [[10]], row_totals := [10],
    col_totals := [10], total := 10 }

/-- Concrete surface at shift `+0.05`. -/
def gB : VegaGrid :=
  { spot_shift := 0.05, moneyness := [1], expiries := ["e"],
    expiry_years := [1], values := [[20]], row_totals := [20],
    col_totals := [20], total := 20 }

/-- A 1×2 grid whose two columns carry the *same* expiry label. -/
def gDup : VegaGrid :=
  { spot_shift := 0, moneyness := [1], expiries := ["X", "X"],
    expiry_years := [1, 1], values := [[100, 50]], row_totals := [150],
    col_totals := [100, 50], total := 150 }

/-- The same grid with distinct expiry labels. -/
def gDistinct : VegaGrid :=
  { spot_shift := 0, moneyness := [1], expiries := ["X", "Y"],
    expiry_years := [1, 1], values := [[100, 50]], row_totals := [150],
    col_totals := [100, 50], total := 150 }

/-- A 1×1 grid at moneyness `0.5` (nonzero volga factor), one year out. -/
def gHalf : VegaGrid :=
  { spot_shift := 0, moneyness := [0.5], expiries := ["Y"],
    expiry_years := [1], values := [[100]], row_totals := [100],
    col_totals := [100], total := 100 }

/-- Manual parameters with `atm_vol_change = 3` (used to make `dSigma = 2`
at moneyness 1, one year out). -/
def mpAtm3 : ManualParams :=
  { atm_vol_change := 3, skew_change := 0.1, term_multiplier := 0.5,
    volga_scale := 0.15 }

/-- Base manual parameters with a non-default `volga_scale = 1`. -/
def mpBase1 : ManualParams :=
  { atm_vol_change := 0, skew_change := 0.1, term_multiplier := 0.5,
    volga_scale := 1 }

/-- What the claim says the scenario sweep should use at override `+1`:
`atm_vol_change := 1`, the other three fields — including `volga_scale` —
held from `mpBase1`. -/
def mpHeld1 : ManualParams :=
  { atm_vol_change := 1, skew_change := 0.1, term_multiplier := 0.5,
    volga_scale := 1 }

/-- A parse table whose supplied row totals (TOTAL column) and column totals
(summary row) are mutually inconsistent: row totals sum to 5, column totals
to 7. -/
def tInconsistent : RawTable :=
  { header := ["E", "TOTAL"],
    rows := [⟨some 1, [5, 5]⟩, ⟨none, [7, 12]⟩] }

/-- A parse table with consistent supplied totals. -/
def tConsistent : RawTable :=
  { header := ["E1", "E2", "TOTAL"],
    rows := [⟨some 0.9, [1, 2, 3]⟩, ⟨some 1.1, [4, 5, 9]⟩,
             ⟨none, [5, 7, 12]⟩] }

/-! ## General lemmas about the embedding -/

theorem sortedShifts_pairwise (surfaces : List (ℚ × VegaGrid)) :
    (sortedShifts surfaces).Pairwise (· ≤ ·) := by
  have h := @List.sorted_mergeSort ℚ (fun a b => decide (a ≤ b))
    (fun a b c hab hbc => by simp_all; linarith)
    (fun a b => by simp [le_total])
    (surfaces.map Prod.fst)
  simpa [sortedShifts] using h

theorem pairwise_le_getLastD : ∀ (l : List ℚ) (a : ℚ),
    (a :: l).Pairwise (· ≤ ·) → a ≤ l.getLastD a := by
  intro l
  induction l with
  | nil => intro a _; simp
  | cons b m ih =>
    intro a h
    have hab : a ≤ b := (List.pairwise_cons.mp h).1 b (by simp)
    have hbm : (b :: m).Pairwise (· ≤ ·) := (List.pairwise_cons.mp h).2
    calc a ≤ b := hab
      _ ≤ m.getLastD b := ih b hbm
      _ = (b :: m).getLastD a := (List.getLastD_cons ..).symm

theorem getLastD_irrel : ∀ {l : List ℚ}, l ≠ [] → ∀ (d d' : ℚ),
    l.getLastD d = l.getLastD d' := by
  intro l h d d'
  cases l with
  | nil => exact absurd rfl h
  | cons a t => rw [List.getLastD_cons, List.getLastD_cons]

theorem headD_mem_of_ne_nil {l : List ℚ} (h : l ≠ []) : l.headD 0 ∈ l := by
  cases l with
  | nil => exact absurd rfl h
  | cons a t => simp

theorem getLastD_mem_of_ne_nil : ∀ {l : List ℚ}, l ≠ [] → l.getLastD 0 ∈ l := by
  intro l
  induction l with
  | nil => exact fun h => absurd rfl h
  | cons a t ih =>
    intro _
    rw [List.getLastD_cons]
    cases t with
    | nil => simp
    | cons b m =>
      rw [getLastD_irrel (by simp) a 0]
      exact List.mem_cons_of_mem a (ih (by simp))

theorem headD_le_getLastD_of_sorted {l : List ℚ} (hp : l.Pairwise (· ≤ ·))
    (h : l ≠ []) : l.headD 0 ≤ l.getLastD 0 := by
  cases l with
  | nil => exact absurd rfl h
  | cons a t =>
    rw [List.getLastD_cons]
    simpa using pairwise_le_getLastD t a hp

theorem find?_isSome_of_mem_sortedShifts {surfaces : List (ℚ × VegaGrid)}
    {b : ℚ} (hb : b ∈ sortedShifts surfaces) :
    ∃ pr, surfaces.find? (fun p => p.1 = b) = some pr := by
  have hmem : b ∈ surfaces.map Prod.fst := by
    simpa [sortedShifts] using (List.mem_mergeSort).mp hb
  obtain ⟨p, hp, hfst⟩ := List.mem_map.mp hmem
  have : (surfaces.find? (fun p => p.1 = b)).isSome := by
    rw [List.find?_isSome]
    exact ⟨p, hp, by simp [hfst]⟩
  obtain ⟨pr, hpr⟩ := Option.isSome_iff_exists.mp this
  exact ⟨pr, hpr⟩

/-! # Theorems settling the claims -/

/-- **C1** (counterexample).  The claim says that with exactly one surface
loaded, `interpolate_vega_grid` returns a copy with the `spot_shift` label
overwritten with the requested target.  In fact the single surface is
returned as is: requesting `-0.05` from a store holding only the `0.02`
surface yields a grid whose `spot_shift` is still `0.02`, not `-0.05`. -/
theorem C1_counterexample :
    interpolate_vega_grid env0 [(0.02, gOne)] (-0.05) "linear" = .ok gOne ∧
    gOne.spot_shift ≠ -0.05 := by
  constructor
  · simp [interpolate_vega_grid, sortedShifts, List.mergeSort, dictGetGrid]
  · simp only [gOne]
    norm_num

/-- **C1** (amended).  With exactly one surface loaded,
`interpolate_vega_grid` returns that surface itself for any requested spot
move: the values matrix (and every other field, including the original
`spot_shift` label, which is *not* overwritten) is retained unchanged. -/
theorem C1_single_surface_identity (env : PyEnv) (k : ℚ) (g : VegaGrid)
    (s : ℚ) (method : String) :
    interpolate_vega_grid env [(k, g)] s method = .ok g := by
  simp [interpolate_vega_grid, sortedShifts, List.mergeSort, dictGetGrid]

/-- **C2** (counterexample).  The claim quantifies over *every* non-empty
surface mapping.  With the single surface stored at key `0`, requesting
`s = 0.05` clamps to `0` — exactly the known shift key — yet the engine
takes the single-surface branch and returns the grid with its own label
`0`, not with the requested (unclamped) move `0.05`. -/
theorem C2_counterexample :
    npClip 0.05 ((sortedShifts [(0, gZero)]).headD 0)
      ((sortedShifts [(0, gZero)]).getLastD 0) = (0, gZero).1 ∧
    interpolate_vega_grid env0 [(0, gZero)] 0.05 "linear" = .ok gZero ∧
    gZero.spot_shift ≠ 0.05 := by
  refine ⟨?_, ?_, ?_⟩
  · norm_num [npClip, sortedShifts, List.mergeSort]
  · simp [interpolate_vega_grid, sortedShifts, List.mergeSort, dictGetGrid]
  · simp only [gZero]
    norm_num

/-- **C2** (amended).  For every surface mapping holding *at least two*
surfaces and every requested spot move `s` whose clamped value exactly
equals a known shift key, `interpolate_vega_grid` returns a (deep copy of)
that surface with its entire contents — in particular the `values`
matrix — unchanged, and only the `spot_shift` label replaced by the
original (unclamped) requested move `s`. -/
theorem C2_exact_match_copy (env : PyEnv) (surfaces : List (ℚ × VegaGrid))
    (s : ℚ) (method : String) (pr : ℚ × VegaGrid)
    (h2 : 2 ≤ (sortedShifts surfaces).length)
    (hfind : surfaces.find? (fun p => p.1 =
      npClip s ((sortedShifts surfaces).headD 0)
        ((sortedShifts surfaces).getLastD 0)) = some pr) :
    interpolate_vega_grid env surfaces s method = .ok { pr.2 with spot_shift := s } := by
  rw [interpolate_vega_grid]
  rw [if_neg (by omega), if_neg (by omega)]
  simp only [hfind]

/-- **C2** (witness): the amended theorem applied to a concrete two-surface
store at the exact key `0.05`. -/
theorem C2_witness :
    (2 ≤ (sortedShifts [(-0.05, gA), (0.05, gB)]).length ∧
      ([(-0.05, gA), (0.05, gB)] : List (ℚ × VegaGrid)).find? (fun p => p.1 =
        npClip 0.05 ((sortedShifts [(-0.05, gA), (0.05, gB)]).headD 0)
          ((sortedShifts [(-0.05, gA), (0.05, gB)]).getLastD 0)) =
        some (0.05, gB)) ∧
    interpolate_vega_grid env0 [(-0.05, gA), (0.05, gB)] 0.05 "linear" =
      .ok { gB with spot_shift := 0.05 } := by
  have hsort : sortedShifts [(-0.05, gA), (0.05, gB)] = [-0.05, 0.05] := by
    simp [sortedShifts, List.mergeSort]
    norm_num
  have h2 : 2 ≤ (sortedShifts [(-0.05, gA), (0.05, gB)]).length := by
    rw [hsort]; simp
  have hfind : ([(-0.05, gA), (0.05, gB)] : List (ℚ × VegaGrid)).find? (fun p => p.1 =
      npClip 0.05 ((sortedShifts [(-0.05, gA), (0.05, gB)]).headD 0)
        ((sortedShifts [(-0.05, gA), (0.05, gB)]).getLastD 0)) =
      some (0.05, gB) := by
    rw [hsort]
    simp [npClip, List.find?]
    norm_num
  exact ⟨⟨h2, hfind⟩, C2_exact_match_copy env0 _ 0.05 "linear" (0.05, gB) h2 hfind⟩

/-- **C3** (counterexample).  The claim says an out-of-range request returns
*the same result* as requesting the nearest boundary.  The two results agree
cell for cell but differ in the `spot_shift` label: requesting `0.1` from a
store sampled on `[-0.05, 0.05]` records `0.1`, while requesting the
boundary records `0.05`. -/
theorem C3_counterexample :
    interpolate_vega_grid env0 [(-0.05, gA), (0.05, gB)] 0.1 "linear" ≠
      interpolate_vega_grid env0 [(-0.05, gA), (0.05, gB)] 0.05 "linear" ∧
    interpolate_vega_grid env0 [(-0.05, gA), (0.05, gB)] 0.1 "linear" =
      .ok { gB with spot_shift := 0.1 } ∧
    interpolate_vega_grid env0 [(-0.05, gA), (0.05, gB)] 0.05 "linear" =
      .ok { gB with spot_shift := 0.05 } := by
  have hsort : sortedShifts [(-0.05, gA), (0.05, gB)] = [-0.05, 0.05] := by
    simp [sortedShifts, List.mergeSort]
    norm_num
  have h1 : interpolate_vega_grid env0 [(-0.05, gA), (0.05, gB)] 0.1 "linear" =
      .ok { gB with spot_shift := 0.1 } := by
    rw [interpolate_vega_grid, hsort]
    norm_num [npClip, List.find?]
  have h2 : interpolate_vega_grid env0 [(-0.05, gA), (0.05, gB)] 0.05 "linear" =
      .ok { gB with spot_shift := 0.05 } := by
    rw [interpolate_vega_grid, hsort]
    norm_num [npClip, List.find?]
  refine ⟨?_, h1, h2⟩
  rw [h1, h2]
  intro h
  have := (Except.ok.injEq _ _).mp h
  have : (0.1 : ℚ) = 0.05 := congrArg VegaGrid.spot_shift this
  norm_num at this

/-- **C3** (amended).  For at least two surfaces and a requested move `s`
strictly outside the sampled range, `interpolate_vega_grid surfaces s`
returns the same grid as requesting the nearest boundary shift `b`, *except
for the `spot_shift` label*, which records the raw requested move `s`
rather than `b`. -/
theorem C3_clamping (env : PyEnv) (surfaces : List (ℚ × VegaGrid)) (s : ℚ)
    (method : String) (h2 : 2 ≤ (sortedShifts surfaces).length)
    (hout : s < (sortedShifts surfaces).headD 0 ∨
      (sortedShifts surfaces).getLastD 0 < s) :
    interpolate_vega_grid env surfaces s method =
      (interpolate_vega_grid env surfaces
        (if s < (sortedShifts surfaces).headD 0 then (sortedShifts surfaces).headD 0
         else (sortedShifts surfaces).getLastD 0) method).map
        (fun g => { g with spot_shift := s }) := by
  have hne : sortedShifts surfaces ≠ [] := by
    intro h; rw [h] at h2; simp at h2
  have hlohi : (sortedShifts surfaces).headD 0 ≤ (sortedShifts surfaces).getLastD 0 :=
    headD_le_getLastD_of_sorted (sortedShifts_pairwise surfaces) hne
  set lo := (sortedShifts surfaces).headD 0 with hlo
  set hi := (sortedShifts surfaces).getLastD 0 with hhi
  set b := if s < lo then lo else hi with hb
  have hbmem : b ∈ sortedShifts surfaces := by
    rw [hb]
    split
    · exact headD_mem_of_ne_nil hne
    · exact getLastD_mem_of_ne_nil hne
  have hclamp : npClip s lo hi = b := by
    rw [npClip, hb]
    rcases hout with h | h
    · rw [if_pos h]
      rw [max_eq_right (le_of_lt h), min_eq_left hlohi]
    · have hsl : ¬(s < lo) := not_lt.mpr (le_trans hlohi (le_of_lt h))
      rw [if_neg hsl]
      rw [max_eq_left (le_trans hlohi (le_of_lt h)), min_eq_right (le_of_lt h)]
  have hclampb : npClip b lo hi = b := by
    rw [npClip, hb]
    split
    · rw [max_self, min_eq_left hlohi]
    · rw [max_eq_left hlohi, min_self]
  obtain ⟨pr, hfind⟩ := find?_isSome_of_mem_sortedShifts hbmem
  rw [interpolate_vega_grid, interpolate_vega_grid]
  rw [if_neg (by omega), if_neg (by omega), if_neg (by omega), if_neg (by omega)]
  rw [← hlo, ← hhi, hclamp, hclampb]
  simp only [hfind, Except.map]

/-- **C3** (witness): the amended theorem applied to the concrete
two-surface store with the out-of-range request `0.1`. -/
theorem C3_witness :
    (2 ≤ (sortedShifts [(-0.05, gA), (0.05, gB)]).length ∧
      ((0.1 : ℚ) < (sortedShifts [(-0.05, gA), (0.05, gB)]).headD 0 ∨
        (sortedShifts [(-0.05, gA), (0.05, gB)]).getLastD 0 < 0.1)) ∧
    interpolate_vega_grid env0 [(-0.05, gA), (0.05, gB)] 0.1 "linear" =
      (interpolate_vega_grid env0 [(-0.05, gA), (0.05, gB)]
        (if (0.1 : ℚ) < (sortedShifts [(-0.05, gA), (0.05, gB)]).headD 0
         then (sortedShifts [(-0.05, gA), (0.05, gB)]).headD 0
         else (sortedShifts [(-0.05, gA), (0.05, gB)]).getLastD 0) "linear").map
        (fun g => { g with spot_shift := 0.1 }) := by
  have hsort : sortedShifts [(-0.05, gA), (0.05, gB)] = [-0.05, 0.05] := by
    simp [sortedShifts, List.mergeSort]
    norm_num
  have h2 : 2 ≤ (sortedShifts [(-0.05, gA), (0.05, gB)]).length := by
    rw [hsort]; simp
  have hout : (0.1 : ℚ) < (sortedShifts [(-0.05, gA), (0.05, gB)]).headD 0 ∨
      (sortedShifts [(-0.05, gA), (0.05, gB)]).getLastD 0 < 0.1 := by
    rw [hsort]
    right
    norm_num
  exact ⟨⟨h2, hout⟩, C3_clamping env0 _ 0.1 "linear" h2 hout⟩

/-- **C5** (confirmed).  `classify_expiry` sends every expiry — via its day
count from the reference date — to exactly one of the six fixed tenor
buckets, the first matching threshold in ascending order winning; the
boundary day counts 30, 90, 180, 365, 730 land in the lower bucket per the
`≤` rule, and everything beyond 730 days lands in `"2Y+"`. -/
theorem C5_bucket_coverage :
    (∀ (env : PyEnv) (e : String), classify_expiry env e = bucketOfDays (env.dateDays e)) ∧
    (∀ d : ℤ, bucketOfDays d =
      if d ≤ 30 then "0-1M" else if d ≤ 90 then "1-3M" else if d ≤ 180 then "3-6M"
      else if d ≤ 365 then "6-12M" else if d ≤ 730 then "1-2Y" else "2Y+") ∧
    (∀ d : ℤ, bucketOfDays d ∈ ["0-1M", "1-3M", "3-6M", "6-12M", "1-2Y", "2Y+"]) ∧
    bucketOfDays 30 = "0-1M" ∧ bucketOfDays 90 = "1-3M" ∧
    bucketOfDays 180 = "3-6M" ∧ bucketOfDays 365 = "6-12M" ∧
    bucketOfDays 730 = "1-2Y" ∧ bucketOfDays 731 = "2Y+" := by
  have hchain : ∀ d : ℤ, bucketOfDays d =
      if d ≤ 30 then "0-1M" else if d ≤ 90 then "1-3M" else if d ≤ 180 then "3-6M"
      else if d ≤ 365 then "6-12M" else if d ≤ 730 then "1-2Y" else "2Y+" := by
    intro d
    by_cases h1 : d ≤ 30 <;> by_cases h2 : d ≤ 90 <;> by_cases h3 : d ≤ 180 <;>
      by_cases h4 : d ≤ 365 <;> by_cases h5 : d ≤ 730 <;>
      simp [bucketOfDays, EXPIRY_BUCKET_THRESHOLDS, List.find?, h1, h2, h3, h4, h5]
  refine ⟨fun _ _ => rfl, hchain, ?_, ?_, ?_, ?_, ?_, ?_, ?_⟩
  · intro d
    rw [hchain d]
    split_ifs <;> simp
  all_goals rw [hchain] ; norm_num

/-- **C6** (counterexample).  With the default parameters
(`spot_vol_beta = -0.4 < 0`, `convexity = 2`), increasing the spot move
from `+0.10` to `+0.15` — so `|dS|` increases — *decreases* the magnitude
of `atm_change` (from 2 to 1.5): the claimed monotonicity in `|dS|` fails
on up moves once the convexity term starts cancelling the linear term. -/
theorem C6_counterexample :
    defaultBetaParams.spot_vol_beta < 0 ∧
    (0 : ℚ) ≤ defaultBetaParams.convexity ∧
    (0 : ℚ) < 0.1 ∧ (0.1 : ℚ) < 0.15 ∧
    |atm_change defaultBetaParams (0.15 * 100)| <
      |atm_change defaultBetaParams (0.1 * 100)| := by
  have h1 : atm_change defaultBetaParams (0.15 * 100) = -(3/2) := by
    norm_num [atm_change, defaultBetaParams]
  have h2 : atm_change defaultBetaParams (0.1 * 100) = -2 := by
    norm_num [atm_change, defaultBetaParams]
  refine ⟨by norm_num [defaultBetaParams], by norm_num [defaultBetaParams],
    by norm_num, by norm_num, ?_⟩
  rw [h1, h2, abs_neg, abs_neg, abs_of_pos (by norm_num), abs_of_pos (by norm_num)]
  norm_num

/-- **C6** (amended).  In `beta_vol_change`, `dSigma` factors through
`atm_change = spot_vol_beta*dS + convexity*dS²*0.01` with `dS = 100*spot_move`;
for `convexity ≥ 0` the convexity term is *added* irrespective of the sign
of `dS` (`atm_change` never falls below the bare linear term); and for
`spot_vol_beta < 0` and `convexity ≥ 0` the magnitude of `atm_change` is
non-decreasing in `|dS|` on *down* moves (`spot_move ≤ 0`) — on up moves it
can decrease (see the counterexample). -/
theorem C6_beta_response :
    (∀ (m t s : ℚ) (p : BetaParams),
      (beta_vol_change m t s p).1 =
        (atm_change p (s * 100) : ℝ) * (skew_effect p m (s * 100) : ℝ) *
          beta_term_factor p t) ∧
    (∀ (p : BetaParams) (dS : ℚ), 0 ≤ p.convexity →
      p.spot_vol_beta * dS ≤ atm_change p dS) ∧
    (∀ (p : BetaParams) (s₁ s₂ : ℚ), p.spot_vol_beta < 0 → 0 ≤ p.convexity →
      s₂ ≤ s₁ → s₁ ≤ 0 →
      |atm_change p (s₁ * 100)| ≤ |atm_change p (s₂ * 100)|) := by
  refine ⟨fun m t s p => rfl, ?_, ?_⟩
  · intro p dS hc
    rw [atm_change]
    nlinarith [mul_self_nonneg dS, mul_nonneg hc (mul_self_nonneg dS)]
  · intro p s₁ s₂ hβ hc h21 h10
    have h20 : s₂ ≤ 0 := le_trans h21 h10
    have hnn : ∀ s : ℚ, s ≤ 0 → 0 ≤ atm_change p (s * 100) := by
      intro s hs
      rw [atm_change]
      have hs100 : s * 100 ≤ 0 := by linarith
      nlinarith [mul_nonneg hc (mul_self_nonneg (s * 100)),
        mul_nonneg (neg_nonneg.mpr hβ.le) (neg_nonneg.mpr hs100)]
    rw [abs_of_nonneg (hnn s₁ h10), abs_of_nonneg (hnn s₂ h20), atm_change, atm_change]
    have hd1 : (0 : ℚ) ≤ s₁ - s₂ := by linarith
    have hd2 : (0 : ℚ) ≤ -(s₁ + s₂) := by linarith
    have hbneg : p.spot_vol_beta * (s₁ - s₂) ≤ 0 :=
      mul_nonpos_of_nonpos_of_nonneg (le_of_lt hβ) hd1
    have hcpos : 0 ≤ p.convexity * ((s₁ - s₂) * (-(s₁ + s₂))) :=
      mul_nonneg hc (mul_nonneg hd1 hd2)
    nlinarith [hbneg, hcpos]

/-- **C6** (witness): the amended monotonicity applied to the default
parameters and the down moves `-0.01`, `-0.02`. -/
theorem C6_witness :
    (defaultBetaParams.spot_vol_beta < 0 ∧ (0 : ℚ) ≤ defaultBetaParams.convexity ∧
      (-0.02 : ℚ) ≤ -0.01 ∧ (-0.01 : ℚ) ≤ 0) ∧
    |atm_change defaultBetaParams (-0.01 * 100)| ≤
      |atm_change defaultBetaParams (-0.02 * 100)| := by
  have hβ : defaultBetaParams.spot_vol_beta < 0 := by norm_num [defaultBetaParams]
  have hc : (0 : ℚ) ≤ defaultBetaParams.convexity := by norm_num [defaultBetaParams]
  exact ⟨⟨hβ, hc, by norm_num, by norm_num⟩,
    C6_beta_response.2.2 defaultBetaParams (-0.01) (-0.02) hβ hc (by norm_num) (by norm_num)⟩

/-- **C9** (amended).  With zero surfaces loaded, `interpolate_vega_grid`
(and hence `compute_pnl`) raises `ValueError("No surfaces provided")` and
produces no result.  The failure is *not* a dedicated `EmptyStoreError`
kind: it is the same `ValueError` class the parser's shift-detection
failure uses, distinguishable only by message (see the counterexample). -/
theorem C9_empty_store_fails (env : PyEnv) (sm : ℚ) (vol_mode method : String)
    (bp : Option BetaParams) (mp : Option ManualParams) :
    interpolate_vega_grid env [] sm method = .error (.valueError "No surfaces provided") ∧
    compute_pnl env [] sm vol_mode bp mp method =
      .error (.valueError "No surfaces provided") := by
  have h : interpolate_vega_grid env [] sm method =
      .error (.valueError "No surfaces provided") := by
    simp [interpolate_vega_grid, sortedShifts, List.mergeSort]
  exact ⟨h, by simp [compute_pnl, h]⟩

/-- **C9** (counterexample).  The claim calls the empty-store failure a
kind distinguishable by the caller from `ParseError`: in the code both the
empty-store failure and the parser's undetectable-shift failure are raised
as the *same* exception class `ValueError`, so no class-level distinction
exists. -/
theorem C9_counterexample :
    interpolate_vega_grid env0 [] 0 "linear" =
      .error (.valueError "No surfaces provided") ∧
    resolve_spot_shift "mystery.csv" none =
      .error (.valueError "Cannot detect spot shift from filename: mystery.csv") ∧
    exErrClass (interpolate_vega_grid env0 [] 0 "linear") =
      exErrClass (resolve_spot_shift "mystery.csv" none) := by
  have h1 : interpolate_vega_grid env0 [] 0 "linear" =
      .error (.valueError "No surfaces provided") := by
    simp [interpolate_vega_grid, sortedShifts, List.mergeSort]
  have hdetect : detect_shift_from_filename "mystery.csv" = none := by decide
  have h2 : resolve_spot_shift "mystery.csv" none =
      .error (.valueError "Cannot detect spot shift from filename: mystery.csv") := by
    simp [resolve_spot_shift, hdetect]
  refine ⟨h1, h2, ?_⟩
  rw [h1, h2]
  rfl

/-- **C10** (confirmed).  In manual mode the spot move is not an input of
the cell model at all: for the same grid and parameters, any two spot moves
produce identical `(vol_changes, volga_pnl)` matrix pairs, so the spot move
influences the P&L only through the interpolated vega grid. -/
theorem C10_manual_independent_of_spot (grid : VegaGrid) (sm₁ sm₂ : ℚ)
    (bp : Option BetaParams) (mp : Option ManualParams) :
    compute_vol_change_grid grid sm₁ "manual" bp mp =
      compute_vol_change_grid grid sm₂ "manual" bp mp := rfl

/-- **C8** (amended).  Parsing a table whose row totals (a `TOTAL` column)
and column totals (a trailing summary row) are both explicitly supplied
reproduces those exact supplied totals, and `total` is always the sum of the
supplied row totals; the sum of `col_totals` equals `total` *provided* the
supplied column totals sum to the same value as the supplied row totals —
the parser performs no consistency check (see the counterexample). -/
theorem C8_parser_totals (env : PyEnv) (fp : String) (t : RawTable) (σ : ℚ)
    (hT : t.header.contains "TOTAL" = true)
    (hS : t.rows.filter (fun r => r.idx.isNone) ≠ []) :
    (exGrid (parse_csv env fp t (some σ))).row_totals = suppliedRowTotals t ∧
    (exGrid (parse_csv env fp t (some σ))).col_totals = suppliedColTotals t ∧
    (exGrid (parse_csv env fp t (some σ))).total = (suppliedRowTotals t).sum ∧
    ((suppliedColTotals t).sum = (suppliedRowTotals t).sum →
      (exGrid (parse_csv env fp t (some σ))).col_totals.sum =
        (exGrid (parse_csv env fp t (some σ))).total) := by
  rcases hfilter : t.rows.filter (fun r => r.idx.isNone) with _ | ⟨s, rest⟩
  · exact absurd hfilter hS
  · have hT' : "TOTAL" ∈ t.header := by simpa using hT
    have hrow : (exGrid (parse_csv env fp t (some σ))).row_totals = suppliedRowTotals t := by
      simp [parse_csv, resolve_spot_shift, exGrid, suppliedRowTotals, hfilter, hT']
    have hcol : (exGrid (parse_csv env fp t (some σ))).col_totals = suppliedColTotals t := by
      simp [parse_csv, resolve_spot_shift, exGrid, suppliedColTotals, hfilter, hT']
    have htot : (exGrid (parse_csv env fp t (some σ))).total = (suppliedRowTotals t).sum := by
      simp [parse_csv, resolve_spot_shift, exGrid, suppliedRowTotals, hfilter, hT']
    refine ⟨hrow, hcol, htot, fun hcons => ?_⟩
    rw [hcol, htot, hcons]

/-- **C8** (witness): the amended theorem applied to a concrete table with
consistent supplied totals (`row_totals = [3, 9]`, `col_totals = [5, 7]`,
both summing to 12). -/
theorem C8_witness :
    (tConsistent.header.contains "TOTAL" = true ∧
      tConsistent.rows.filter (fun r => r.idx.isNone) ≠ [] ∧
      (suppliedColTotals tConsistent).sum = (suppliedRowTotals tConsistent).sum) ∧
    ((exGrid (parse_csv env0 "book.csv" tConsistent (some 0))).row_totals =
        suppliedRowTotals tConsistent ∧
      (exGrid (parse_csv env0 "book.csv" tConsistent (some 0))).col_totals =
        suppliedColTotals tConsistent ∧
      (exGrid (parse_csv env0 "book.csv" tConsistent (some 0))).total =
        (suppliedRowTotals tConsistent).sum ∧
      (exGrid (parse_csv env0 "book.csv" tConsistent (some 0))).col_totals.sum =
        (exGrid (parse_csv env0 "book.csv" tConsistent (some 0))).total) := by
  have hT : tConsistent.header.contains "TOTAL" = true := by
    simp [tConsistent]
  have hS : tConsistent.rows.filter (fun r => r.idx.isNone) ≠ [] := by
    simp [tConsistent]
  have hcons : (suppliedColTotals tConsistent).sum = (suppliedRowTotals tConsistent).sum := by
    simp [suppliedColTotals, suppliedRowTotals, tConsistent]
    norm_num
  have h := C8_parser_totals env0 "book.csv" tConsistent 0 hT hS
  exact ⟨⟨hT, hS, hcons⟩, h.1, h.2.1, h.2.2.1, h.2.2.2 hcons⟩

/-- **C8** (counterexample).  The claim as stated asserts
`sum(col_totals) == total` for *any* explicitly supplied totals, but the
parser never checks consistency: a table whose supplied row totals sum to 5
while its supplied column totals sum to 7 parses into a grid with
`total = 5` and `col_totals.sum = 7`. -/
theorem C8_counterexample :
    tInconsistent.header.contains "TOTAL" = true ∧
    tInconsistent.rows.filter (fun r => r.idx.isNone) ≠ [] ∧
    (exGrid (parse_csv env0 "book.csv" tInconsistent (some 0))).col_totals.sum ≠
      (exGrid (parse_csv env0 "book.csv" tInconsistent (some 0))).total := by
  refine ⟨by simp [tInconsistent], by simp [tInconsistent], ?_⟩
  simp [parse_csv, resolve_spot_shift, tInconsistent, exGrid, List.eraseIdx]

/-! ## Summation and dict lemmas for the aggregation claims -/

theorem sum_range_getD (l : List ℝ) :
    ∑ j ∈ Finset.range l.length, l.getD j 0 = l.sum := by
  induction l with
  | nil => simp
  | cons a t ih =>
    rw [List.length_cons, Finset.sum_range_succ']
    simp only [List.getD_cons_succ, List.getD_cons_zero]
    rw [ih, List.sum_cons, add_comm]

theorem sum_range_colSum (mat : List (List ℝ)) (M : ℕ)
    (h : ∀ r ∈ mat, r.length = M) :
    ∑ j ∈ Finset.range M, colSum mat j = matSum mat := by
  induction mat with
  | nil => simp [colSum, matSum]
  | cons r t ih =>
    have hr : r.length = M := h r (by simp)
    have ht : ∀ r' ∈ t, r'.length = M := fun r' hr' => h r' (by simp [hr'])
    have hcol : ∀ j, colSum (r :: t) j = r.getD j 0 + colSum t j := by
      intro j; simp [colSum]
    calc ∑ j ∈ Finset.range M, colSum (r :: t) j
        = ∑ j ∈ Finset.range M, (r.getD j 0 + colSum t j) := by
          exact Finset.sum_congr rfl (fun j _ => hcol j)
      _ = (∑ j ∈ Finset.range M, r.getD j 0) + ∑ j ∈ Finset.range M, colSum t j :=
          Finset.sum_add_distrib
      _ = r.sum + matSum t := by rw [ih ht, ← hr, sum_range_getD]
      _ = matSum (r :: t) := by simp [matSum]

theorem sum_range_rows (mat : List (List ℝ)) :
    ∑ i ∈ Finset.range mat.length, (mat.getD i []).sum = matSum mat := by
  induction mat with
  | nil => simp [matSum]
  | cons r t ih =>
    rw [List.length_cons, Finset.sum_range_succ']
    simp only [List.getD_cons_succ, List.getD_cons_zero]
    rw [ih]
    simp [matSum, add_comm]

theorem valsSum_append (d e : List (α × ℝ)) :
    valsSum (d ++ e) = valsSum d + valsSum e := by
  simp [valsSum]

theorem dictSet_fresh [DecidableEq α] {d : List (α × β)} {k : α}
    (h : k ∉ d.map Prod.fst) (v : β) : dictSet d k v = d ++ [(k, v)] := by
  rw [dictSet, if_neg]
  simpa using h

theorem keys_dictSet_of_mem [DecidableEq α] {d : List (α × β)} {k : α}
    (h : k ∈ d.map Prod.fst) (v : β) :
    (dictSet d k v).map Prod.fst = d.map Prod.fst := by
  rw [dictSet, if_pos (by simpa using h)]
  rw [List.map_map]
  apply List.map_congr_left
  intro p _
  by_cases hp : p.1 = k <;> simp [hp]

theorem nodup_keys_dictSet [DecidableEq α] {d : List (α × β)}
    (h : (d.map Prod.fst).Nodup) (k : α) (v : β) :
    ((dictSet d k v).map Prod.fst).Nodup := by
  by_cases hk : k ∈ d.map Prod.fst
  · rw [keys_dictSet_of_mem hk]; exact h
  · rw [dictSet_fresh hk]
    simp only [List.map_append, List.map_cons, List.map_nil]
    rw [List.nodup_append]
    refine ⟨h, by simp, ?_⟩
    intro a ha hak
    have hk' : a = k := by simpa using hak
    exact hk (hk' ▸ ha)

theorem dictSet_cons_ne [DecidableEq α] {a : α × β} {k : α} (h : k ≠ a.1)
    (t : List (α × β)) (v : β) :
    dictSet (a :: t) k v = a :: dictSet t k v := by
  rw [dictSet, dictSet]
  by_cases hm : (t.map Prod.fst).contains k
  · rw [if_pos, if_pos hm]
    · simp only [List.map_cons]
      rw [if_neg (fun he => h he.symm)]
    · rw [List.map_cons, List.contains_cons, hm, Bool.or_true]
  · rw [if_neg, if_neg hm]
    · simp
    · rw [List.map_cons, List.contains_cons]
      intro hcon
      rcases (Bool.or_eq_true _ _).mp hcon with he | hc
      · exact h (by simpa using he)
      · exact hm hc

theorem dictGetD_cons_ne [DecidableEq α] {a : α × β} {k : α} (h : a.1 ≠ k)
    (t : List (α × β)) (v₀ : β) :
    dictGetD (a :: t) k v₀ = dictGetD t k v₀ := by
  rw [dictGetD, dictGetD, List.find?_cons_of_neg]
  simp [h]

theorem map_keep_of_not_mem [DecidableEq α] {t : List (α × β)} {k : α}
    (h : k ∉ t.map Prod.fst) (v : β) :
    t.map (fun p => if p.1 = k then (p.1, v) else p) = t := by
  apply List.map_congr_left ?_ |>.trans (List.map_id t)
  intro p hp
  have : p.1 ≠ k := fun he => h (he ▸ List.mem_map_of_mem Prod.fst hp)
  simp [this]

theorem valsSum_dictSet_get [DecidableEq α] :
    ∀ (d : List (α × ℝ)), (d.map Prod.fst).Nodup → ∀ (k : α) (x : ℝ),
      valsSum (dictSet d k (dictGetD d k 0 + x)) = valsSum d + x := by
  intro d
  induction d with
  | nil =>
    intro _ k x
    rw [dictSet_fresh (by simp)]
    simp [valsSum, dictGetD]
  | cons a t ih =>
    intro hnd k x
    have hnd' : (a.1 :: t.map Prod.fst).Nodup := by
      rw [List.map_cons] at hnd; exact hnd
    have hna : a.1 ∉ t.map Prod.fst := (List.nodup_cons.mp hnd').1
    have hnt : (t.map Prod.fst).Nodup := (List.nodup_cons.mp hnd').2
    by_cases hk : k = a.1
    · subst hk
      have hget : dictGetD (a :: t) a.1 0 = a.2 := by
        rw [dictGetD, List.find?_cons_of_pos _ (by simp)]
        rfl
      rw [hget, dictSet, if_pos, List.map_cons]
      · rw [show (if a.1 = a.1 then (a.1, a.2 + x) else a) = (a.1, a.2 + x) from if_pos rfl]
        rw [map_keep_of_not_mem hna]
        simp only [valsSum, List.map_cons, List.sum_cons]
        ring
      · rw [List.map_cons, List.contains_cons]
        simp
    · rw [dictGetD_cons_ne (fun he => hk he.symm), dictSet_cons_ne hk]
      simp only [valsSum, List.map_cons, List.sum_cons]
      have := ih hnt k x
      simp only [valsSum] at this
      rw [this]
      ring

theorem valsSum_foldl_dictSet [DecidableEq α] (key : σ → α) (val : σ → ℝ) :
    ∀ (L : List σ) (d₀ : List (α × ℝ)),
      (L.map key).Nodup → (∀ x ∈ L, key x ∉ d₀.map Prod.fst) →
      valsSum (L.foldl (fun d x => dictSet d (key x) (val x)) d₀) =
        valsSum d₀ + (L.map val).sum := by
  intro L
  induction L with
  | nil => intro d₀ _ _; simp
  | cons x L ih =>
    intro d₀ hnd hfresh
    rw [List.foldl_cons]
    have hx : key x ∉ d₀.map Prod.fst := hfresh x (by simp)
    have hndL : (L.map key).Nodup := (List.nodup_cons.mp (by simpa using hnd)).2
    have hhead : key x ∉ L.map key := (List.nodup_cons.mp (by simpa using hnd)).1
    have hd₁ : ∀ y ∈ L, key y ∉ (dictSet d₀ (key x) (val x)).map Prod.fst := by
      intro y hy
      rw [dictSet_fresh hx]
      simp only [List.map_append, List.map_cons, List.map_nil, List.mem_append,
        List.mem_cons, List.not_mem_nil, or_false]
      rintro (hmem | hmem)
      · exact hfresh y (by simp [hy]) hmem
      · exact hhead (hmem ▸ List.mem_map_of_mem key hy)
    rw [ih _ hndL hd₁, dictSet_fresh hx, valsSum_append]
    simp [valsSum]
    ring

theorem valsSum_foldl_accum [DecidableEq α] (key : σ → α) (val : σ → ℝ) :
    ∀ (L : List σ) (d₀ : List (α × ℝ)), (d₀.map Prod.fst).Nodup →
      valsSum (L.foldl
        (fun d x => dictSet d (key x) (dictGetD d (key x) 0 + val x)) d₀) =
        valsSum d₀ + (L.map val).sum := by
  intro L
  induction L with
  | nil => intro d₀ _; simp
  | cons x L ih =>
    intro d₀ hnd
    rw [List.foldl_cons]
    have h1 := valsSum_dictSet_get d₀ hnd (key x) (val x)
    have h2 := nodup_keys_dictSet hnd (key x) (dictGetD d₀ (key x) 0 + val x)
    rw [ih _ h2, h1]
    simp
    ring

theorem sum_map_enumFrom_fst (f : ℕ → ℝ) :
    ∀ (l : List γ) (n : ℕ),
      ((List.enumFrom n l).map (fun p => f p.1)).sum =
        ∑ k ∈ Finset.range l.length, f (n + k) := by
  intro l
  induction l with
  | nil => intro n; simp
  | cons a t ih =>
    intro n
    rw [List.enumFrom_cons, List.map_cons, List.sum_cons, ih (n + 1),
      List.length_cons, Finset.sum_range_succ']
    have h2 : (∑ k ∈ Finset.range t.length, f (n + 1 + k)) =
        ∑ k ∈ Finset.range t.length, f (n + (k + 1)) :=
      Finset.sum_congr rfl (fun k _ => by rw [show n + 1 + k = n + (k + 1) by omega])
    rw [h2, Nat.add_zero, add_comm]

theorem valsSum_enum_dictSet [DecidableEq α] (l : List α) (f : ℕ → ℝ)
    (hnd : l.Nodup) :
    valsSum (l.enum.foldl (fun d p => dictSet d p.2 (f p.1)) []) =
      ∑ k ∈ Finset.range l.length, f k := by
  have hmap : List.map Prod.snd l.enum = l := List.enum_map_snd l
  have h := valsSum_foldl_dictSet Prod.snd (fun p => f p.1) l.enum []
    (by rw [hmap]; exact hnd) (by simp)
  rw [h]
  have h2 : ((List.enumFrom 0 l).map (fun p => f p.1)).sum =
      ∑ k ∈ Finset.range l.length, f k := by
    rw [sum_map_enumFrom_fst f l 0]
    exact Finset.sum_congr rfl (fun k _ => by rw [Nat.zero_add])
  simp only [valsSum, List.map_nil, List.sum_nil, zero_add]
  exact h2

theorem valsSum_enum_accum [DecidableEq α] (l : List β) (key : β → α) (f : ℕ → ℝ) :
    valsSum (l.enum.foldl
      (fun d p => dictSet d (key p.2) (dictGetD d (key p.2) 0 + f p.1)) []) =
      ∑ k ∈ Finset.range l.length, f k := by
  have h := valsSum_foldl_accum (fun p => key p.2) (fun p => f p.1) l.enum [] (by simp)
  rw [h]
  have h2 : ((List.enumFrom 0 l).map (fun p => f p.1)).sum =
      ∑ k ∈ Finset.range l.length, f k := by
    rw [sum_map_enumFrom_fst f l 0]
    exact Finset.sum_congr rfl (fun k _ => by rw [Nat.zero_add])
  simp only [valsSum, List.map_nil, List.sum_nil, zero_add]
  exact h2

theorem vol_grid_fst_length (g : VegaGrid) (sm : ℚ) (mode : String)
    (bp : Option BetaParams) (mp : Option ManualParams) :
    (compute_vol_change_grid g sm mode bp mp).1.length = g.values.length := by
  simp [compute_vol_change_grid]

theorem vol_grid_snd_length (g : VegaGrid) (sm : ℚ) (mode : String)
    (bp : Option BetaParams) (mp : Option ManualParams) :
    (compute_vol_change_grid g sm mode bp mp).2.length = g.values.length := by
  simp [compute_vol_change_grid]

theorem vol_grid_fst_rows (g : VegaGrid) (sm : ℚ) (mode : String)
    (bp : Option BetaParams) (mp : Option ManualParams) :
    ∀ r ∈ (compute_vol_change_grid g sm mode bp mp).1,
      r.length = (g.values.headD []).length := by
  intro r hr
  simp only [compute_vol_change_grid, List.mem_map] at hr
  obtain ⟨i, _, rfl⟩ := hr
  simp

theorem vol_grid_snd_rows (g : VegaGrid) (sm : ℚ) (mode : String)
    (bp : Option BetaParams) (mp : Option ManualParams) :
    ∀ r ∈ (compute_vol_change_grid g sm mode bp mp).2,
      r.length = (g.values.headD []).length := by
  intro r hr
  simp only [compute_vol_change_grid, List.mem_map] at hr
  obtain ⟨i, _, rfl⟩ := hr
  simp

theorem headD_length_of_rows {g : VegaGrid} {E : ℕ}
    (hE : ∀ row ∈ g.values, row.length = E) (hne : g.values ≠ []) :
    (g.values.headD []).length = E := by
  cases hv : g.values with
  | nil => exact absurd hv hne
  | cons r₀ tv =>
    simp only [List.headD_cons]
    exact hE r₀ (by rw [hv]; simp)

theorem matAddMul_row_length (E : ℕ) :
    ∀ (v : List (List ℚ)) (A B : List (List ℝ)),
      (∀ r ∈ v, r.length = E) → (∀ r ∈ A, r.length = E) → (∀ r ∈ B, r.length = E) →
      ∀ r ∈ matAdd (matMulQR v A) (matMulQR v B), r.length = E := by
  intro v
  induction v with
  | nil => intro A B _ _ _ r hr; simp [matAdd, matMulQR] at hr
  | cons rv v ih =>
    intro A B hv hA hB r hr
    cases A with
    | nil => simp [matAdd, matMulQR] at hr
    | cons ra A' =>
      cases B with
      | nil => simp [matAdd, matMulQR] at hr
      | cons rb B' =>
        simp only [matMulQR, matAdd, List.zipWith_cons_cons] at hr
        rcases List.mem_cons.mp hr with hhd | htl
        · subst hhd
          rw [List.length_zipWith, List.length_zipWith, List.length_zipWith]
          have h1 := hv rv (by simp)
          have h2 := hA ra (by simp)
          have h3 := hB rb (by simp)
          omega
        · exact ih A' B' (fun r hr => hv r (by simp [hr]))
            (fun r hr => hA r (by simp [hr])) (fun r hr => hB r (by simp [hr])) r
            (by simpa [matAdd, matMulQR] using htl)

theorem matAddMul_length (v : List (List ℚ)) (A B : List (List ℝ))
    (hA : A.length = v.length) (hB : B.length = v.length) :
    (matAdd (matMulQR v A) (matMulQR v B)).length = v.length := by
  simp [matAdd, matMulQR, hA, hB]

/-- **C4** (amended).  For every `PnLResult` of `compute_pnl` whose
(interpolated) vega grid is rectangular and has pairwise-distinct expiry
labels and pairwise-distinct moneyness values, the three aggregations agree
exactly: `total_pnl` equals the sum of the `pnl_by_expiry` values, the sum
of the `pnl_by_bucket` values, and the sum of the `pnl_by_moneyness`
values.  (Distinctness is necessary: the expiry and moneyness dicts are
written with overwrite semantics — see the counterexample.) -/
theorem C4_pnl_decomposition (env : PyEnv) (surfaces : List (ℚ × VegaGrid))
    (sm : ℚ) (vol_mode : String) (bp : Option BetaParams)
    (mp : Option ManualParams) (method : String) (r : PnLResult)
    (hok : compute_pnl env surfaces sm vol_mode bp mp method = .ok r)
    (hE : ∀ row ∈ r.vega_grid.values, row.length = r.vega_grid.expiries.length)
    (hN : r.vega_grid.values.length = r.vega_grid.moneyness.length)
    (hnodupE : r.vega_grid.expiries.Nodup)
    (hnodupM : r.vega_grid.moneyness.Nodup) :
    valsSum r.pnl_by_expiry = r.total_pnl ∧
    valsSum r.pnl_by_bucket = r.total_pnl ∧
    valsSum r.pnl_by_moneyness = r.total_pnl := by
  cases hI : interpolate_vega_grid env surfaces sm method with
  | error e => rw [compute_pnl] at hok; simp [hI] at hok
  | ok g =>
    rw [compute_pnl] at hok
    simp only [hI, bind, Except.bind] at hok
    obtain rfl := (Except.ok.injEq _ _).mp hok
    simp only at hE hN hnodupE hnodupM ⊢
    set A := (compute_vol_change_grid g sm vol_mode
      (some (bp.getD defaultBetaParams)) (some (mp.getD defaultManualParams))).1 with hA
    set B := (compute_vol_change_grid g sm vol_mode
      (some (bp.getD defaultBetaParams)) (some (mp.getD defaultManualParams))).2 with hB
    set pnl := matAdd (matMulQR g.values A) (matMulQR g.values B) with hpnl
    have hArows : ∀ row ∈ A, row.length = g.expiries.length := by
      intro row hrow
      rcases hv : g.values with _ | ⟨r₀, tv⟩
      · rw [hA] at hrow
        simp [compute_vol_change_grid, hv] at hrow
      · rw [vol_grid_fst_rows g sm vol_mode _ _ row (hA ▸ hrow)]
        exact headD_length_of_rows hE (by rw [hv]; simp)
    have hBrows : ∀ row ∈ B, row.length = g.expiries.length := by
      intro row hrow
      rcases hv : g.values with _ | ⟨r₀, tv⟩
      · rw [hB] at hrow
        simp [compute_vol_change_grid, hv] at hrow
      · rw [vol_grid_snd_rows g sm vol_mode _ _ row (hB ▸ hrow)]
        exact headD_length_of_rows hE (by rw [hv]; simp)
    have hrows : ∀ row ∈ pnl, row.length = g.expiries.length :=
      matAddMul_row_length g.expiries.length g.values A B hE hArows hBrows
    have hplen : pnl.length = g.values.length :=
      matAddMul_length g.values A B
        (hA ▸ vol_grid_fst_length g sm vol_mode _ _)
        (hB ▸ vol_grid_snd_length g sm vol_mode _ _)
    refine ⟨?_, ?_, ?_⟩
    · rw [valsSum_enum_dictSet g.expiries (colSum pnl) hnodupE,
        sum_range_colSum pnl g.expiries.length hrows]
    · rw [valsSum_enum_accum g.expiries (classify_expiry env) (colSum pnl),
        sum_range_colSum pnl g.expiries.length hrows]
    · rw [valsSum_enum_dictSet g.moneyness (fun i => (pnl.getD i []).sum) hnodupM]
      have hlen : g.moneyness.length = pnl.length := by rw [hplen, hN]
      rw [hlen, sum_range_rows pnl]

/-- **C4** (witness): the amended decomposition applied to a concrete
single-surface computation with distinct expiry labels and distinct
moneyness values. -/
theorem C4_witness :
    ∃ r, compute_pnl env0 [(0, gDistinct)] 0 "manual" none (some mpAtm3) "linear" =
        .ok r ∧
      (∀ row ∈ r.vega_grid.values, row.length = r.vega_grid.expiries.length) ∧
      r.vega_grid.values.length = r.vega_grid.moneyness.length ∧
      r.vega_grid.expiries.Nodup ∧ r.vega_grid.moneyness.Nodup ∧
      (valsSum r.pnl_by_expiry = r.total_pnl ∧
        valsSum r.pnl_by_bucket = r.total_pnl ∧
        valsSum r.pnl_by_moneyness = r.total_pnl) := by
  have hI : interpolate_vega_grid env0 [(0, gDistinct)] 0 "linear" = .ok gDistinct := by
    simp [interpolate_vega_grid, sortedShifts, List.mergeSort, dictGetGrid]
  cases hok : compute_pnl env0 [(0, gDistinct)] 0 "manual" none (some mpAtm3) "linear" with
  | error e =>
    rw [compute_pnl] at hok
    simp [hI] at hok
  | ok r =>
    have hveq : r.vega_grid = gDistinct := by
      rw [compute_pnl] at hok
      simp only [hI, bind, Except.bind] at hok
      obtain rfl := (Except.ok.injEq _ _).mp hok
      rfl
    have hE : ∀ row ∈ r.vega_grid.values, row.length = r.vega_grid.expiries.length := by
      rw [hveq]
      intro row hrow
      simp [gDistinct] at hrow
      simp [hrow, gDistinct]
    have hN : r.vega_grid.values.length = r.vega_grid.moneyness.length := by
      rw [hveq]; simp [gDistinct]
    have hnE : r.vega_grid.expiries.Nodup := by
      rw [hveq]; simp [gDistinct]
    have hnM : r.vega_grid.moneyness.Nodup := by
      rw [hveq]; simp [gDistinct]
    exact ⟨r, rfl, hE, hN, hnE, hnM,
      C4_pnl_decomposition env0 [(0, gDistinct)] 0 "manual" none (some mpAtm3)
        "linear" r hok hE hN hnE hnM⟩

/-- **C4** (counterexample).  The claim quantifies over *every* computed
`PnLResult`, but the by-expiry dict is written with overwrite semantics:
on a grid whose two columns share the expiry label `"X"` (vega `[[100, 50]]`
at moneyness 1, one year out, manual mode with `atm_vol_change = 3`, so
`dSigma = 2` and zero volga), the total P&L is `300` while the expiry dict
retains only the second column's `100`. -/
theorem C4_counterexample :
    exByExpirySum (compute_pnl env0 [(0, gDup)] 0 "manual" none (some mpAtm3) "linear") ≠
      exTotal (compute_pnl env0 [(0, gDup)] 0 "manual" none (some mpAtm3) "linear") := by
  simp [compute_pnl, interpolate_vega_grid, sortedShifts, List.mergeSort,
    dictGetGrid, gDup, mpAtm3, compute_vol_change_grid, manual_vol_change,
    volga_factor, matAdd, matMulQR, matSum, colSum, exTotal, exByExpirySum,
    valsSum, dictSet, dictGetD, List.range_succ, Real.sqrt_one, Real.log_one,
    List.enum_cons, List.enumFrom_cons, List.find?]
  norm_num

/-! ## Success lemmas for the scenario matrix -/

theorem interpolate_isOk (env : PyEnv) {surfaces : List (ℚ × VegaGrid)}
    (h : surfaces ≠ []) (sm : ℚ) (method : String) :
    ∃ g, interpolate_vega_grid env surfaces sm method = .ok g := by
  have hlen : (sortedShifts surfaces).length = surfaces.length := by
    simp [sortedShifts, List.length_mergeSort]
  have h0 : ¬((sortedShifts surfaces).length = 0) := by
    rw [hlen]
    intro he
    exact h (List.length_eq_zero.mp he)
  cases hres : interpolate_vega_grid env surfaces sm method with
  | ok g => exact ⟨g, rfl⟩
  | error e =>
    exfalso
    rw [interpolate_vega_grid, if_neg h0] at hres
    by_cases h1 : (sortedShifts surfaces).length = 1
    · rw [if_pos h1] at hres
      exact Except.noConfusion hres
    · rw [if_neg h1] at hres
      cases hfind : surfaces.find? (fun p => p.1 =
          npClip sm ((sortedShifts surfaces).headD 0)
            ((sortedShifts surfaces).getLastD 0)) with
      | some pr =>
        simp only [hfind] at hres
        exact Except.noConfusion hres
      | none =>
        simp only [hfind] at hres
        exact Except.noConfusion hres

theorem compute_pnl_isOk (env : PyEnv) {surfaces : List (ℚ × VegaGrid)}
    (h : surfaces ≠ []) (sm : ℚ) (vol_mode : String) (bp : Option BetaParams)
    (mp : Option ManualParams) (method : String) :
    ∃ r, compute_pnl env surfaces sm vol_mode bp mp method = .ok r := by
  cases hres : compute_pnl env surfaces sm vol_mode bp mp method with
  | ok r => exact ⟨r, rfl⟩
  | error e =>
    exfalso
    obtain ⟨g, hg⟩ := interpolate_isOk env h sm method
    rw [compute_pnl] at hres
    simp only [hg, bind, Except.bind] at hres
    exact Except.noConfusion hres

theorem mapM_ok_of_all (f : α → Except PyError β) (g : α → β) :
    ∀ (l : List α), (∀ a ∈ l, f a = .ok (g a)) → l.mapM f = .ok (l.map g) := by
  intro l
  induction l with
  | nil => intro _; rw [List.mapM_nil]; rfl
  | cons a t ih =>
    intro hall
    rw [List.mapM_cons, hall a (by simp), ih (fun x hx => hall x (by simp [hx]))]
    rfl

/-- **C7** (amended).  In manual mode, `compute_scenario_matrix` produces
one row per spot move carrying one total-P&L column per vol override, each
labelled `vol_<signed-int>`; each cell is `compute_pnl` run with a
`ManualParams` whose `atm_vol_change` is the override and whose
`skew_change` and `term_multiplier` are held from the base parameters —
but whose `volga_scale` reverts to the dataclass default `0.15` instead of
being held from the base parameters (see the counterexample).  With no
override list supplied, the default set `{-5,-3,-1,0,1,3,5}` is used. -/
theorem C7_manual_scenario_matrix (env : PyEnv) (surfaces : List (ℚ × VegaGrid))
    (sms : List ℚ) (mp : ManualParams) (ovr : List ℤ) (h : surfaces ≠ []) :
    compute_scenario_matrix env surfaces (some sms) "manual" none (some mp)
        (some ovr) =
      .ok (sms.map (fun sm =>
        { spot_move := sm,
          cells := ovr.map (fun dv =>
            (volLabel dv,
              exTotal (compute_pnl env surfaces sm "manual" none
                (some { atm_vol_change := ((dv : ℤ) : ℚ),
                        skew_change := mp.skew_change,
                        term_multiplier := mp.term_multiplier,
                        volga_scale := defaultManualParams.volga_scale })
                "linear"))) })) ∧
    compute_scenario_matrix env surfaces (some sms) "manual" none (some mp) none =
      compute_scenario_matrix env surfaces (some sms) "manual" none (some mp)
        (some [-5, -3, -1, 0, 1, 3, 5]) := by
  constructor
  · rw [compute_scenario_matrix]
    simp only [Option.getD_some, String.reduceBEq, Bool.false_eq_true, if_false,
      reduceIte]
    apply mapM_ok_of_all
    intro sm _
    have hcells : ovr.mapM (fun dv =>
        let mpRow : ManualParams :=
          { atm_vol_change := ((dv : ℤ) : ℚ), skew_change := mp.skew_change,
            term_multiplier := mp.term_multiplier,
            volga_scale := defaultManualParams.volga_scale }
        do
          let r ← compute_pnl env surfaces sm "manual" none (some mpRow) "linear"
          return (volLabel dv, r.total_pnl)) =
        .ok (ovr.map (fun dv =>
          (volLabel dv,
            exTotal (compute_pnl env surfaces sm "manual" none
              (some { atm_vol_change := ((dv : ℤ) : ℚ),
                      skew_change := mp.skew_change,
                      term_multiplier := mp.term_multiplier,
                      volga_scale := defaultManualParams.volga_scale })
              "linear")))) := by
      apply mapM_ok_of_all
      intro dv _
      obtain ⟨r, hr⟩ := compute_pnl_isOk env h sm "manual" none
        (some { atm_vol_change := ((dv : ℤ) : ℚ), skew_change := mp.skew_change,
                term_multiplier := mp.term_multiplier,
                volga_scale := defaultManualParams.volga_scale }) "linear"
      simp only [bind, Except.bind, hr]
      rfl
    rw [hcells]
    simp only [bind, Except.bind]
    rfl
  · rfl

/-- **C7** (witness): the amended theorem applied to a concrete store, one
spot move and one override. -/
theorem C7_witness :
    ([((0 : ℚ), gHalf)] ≠ ([] : List (ℚ × VegaGrid))) ∧
    compute_scenario_matrix env0 [(0, gHalf)] (some [0]) "manual" none
        (some mpBase1) (some [1]) =
      .ok ([(0 : ℚ)].map (fun sm =>
        { spot_move := sm,
          cells := ([1] : List ℤ).map (fun dv =>
            (volLabel dv,
              exTotal (compute_pnl env0 [(0, gHalf)] sm "manual" none
                (some { atm_vol_change := ((dv : ℤ) : ℚ),
                        skew_change := mpBase1.skew_change,
                        term_multiplier := mpBase1.term_multiplier,
                        volga_scale := defaultManualParams.volga_scale })
                "linear"))) })) := by
  have h : ([((0 : ℚ), gHalf)] ≠ ([] : List (ℚ × VegaGrid))) := by simp
  exact ⟨h, (C7_manual_scenario_matrix env0 [(0, gHalf)] [0] mpBase1 [1] h).1⟩

/-- At moneyness `0.5` one year out the Volga factor hits its cap `10`
(because `(log 2)² / 0.04 > 10`). -/
theorem volga_factor_half_one : volga_factor 0.5 1 = 10 := by
  have h2 := Real.log_two_gt_d9
  rw [volga_factor]
  have hmax : (max (0.5 : ℚ) 0.01) = 0.5 := by norm_num
  have hmax1 : (max (1 : ℚ) 0.01) = 1 := by norm_num
  rw [hmax, hmax1]
  have hc : (((0.5 : ℚ) : ℝ)) = 1 / 2 := by norm_num
  rw [hc]
  have hl : Real.log (1 / 2) = -Real.log 2 := by
    rw [one_div, Real.log_inv]
  rw [hl]
  have hsq : ((-Real.log 2) ^ 2) = Real.log 2 ^ 2 := by ring
  rw [hsq]
  have h10 : (10 : ℝ) ≤ Real.log 2 ^ 2 / ((0.2 : ℝ) ^ 2 * ((1 : ℚ) : ℝ)) := by
    push_cast
    rw [le_div_iff₀ (by norm_num)]
    nlinarith
  exact min_eq_right h10

/-- **C7** (counterexample).  The claim says the sweep holds `volga_scale`
from the base parameters.  With base `volga_scale = 1` (store `[(0, gHalf)]`,
spot move 0, single override `+1`), the scenario cell — computed with the
dataclass default `volga_scale = 0.15` — differs from the total P&L computed
with a `ManualParams` that actually holds `volga_scale = 1`. -/
theorem C7_counterexample :
    firstCell (compute_scenario_matrix env0 [(0, gHalf)] (some [0]) "manual" none
      (some mpBase1) (some [1])) ≠
    exTotal (compute_pnl env0 [(0, gHalf)] 0 "manual" none (some mpHeld1) "linear") := by
  have hvf := volga_factor_half_one
  simp [compute_scenario_matrix, compute_pnl, interpolate_vega_grid,
    sortedShifts, List.mergeSort, dictGetGrid, gHalf, mpBase1, mpHeld1,
    compute_vol_change_grid, manual_vol_change, matAdd, matMulQR, matSum,
    colSum, exTotal, firstCell, valsSum, dictSet, dictGetD, List.range_succ,
    Real.sqrt_one, List.enum_cons, List.enumFrom_cons, volLabel,
    defaultManualParams, hvf, List.mapM.loop]
  norm_num
